import Mathlib

/-!
Verification development for the fuego server (`src/server/src/main.rs`,
`src/server/src/utils/mod.rs`): a local HTTP gateway that builds, submits
and pays for Solana transactions.  The Rust handlers are shallowly embedded
as pure Lean functions; network calls are modelled by explicit oracles and
recorded call lists, and the handful of library primitives the handlers
lean on (base58 decoding, IEEE-754 arithmetic for amount scaling, base64,
message compilation) are embedded exactly.
-/

set_option maxRecDepth 40000

namespace Fuego

instance {ε α : Type} [DecidableEq ε] [DecidableEq α] : DecidableEq (Except ε α)
  | .error e1, .error e2 =>
    if h : e1 = e2 then .isTrue (by rw [h])
    else .isFalse (fun hh => h (by injection hh))
  | .error _, .ok _ => .isFalse (fun hh => by injection hh)
  | .ok _, .error _ => .isFalse (fun hh => by injection hh)
  | .ok a, .ok b =>
    if h : a = b then .isTrue (by rw [h])
    else .isFalse (fun hh => h (by injection hh))

/-! ## Decimal digits and `u64` parsing (Rust `str::parse::<u64>`) -/

def decDigit (c : Char) : Option ℕ :=
  if '0' ≤ c ∧ c ≤ '9' then some (c.toNat - 48) else none

def digitsToNat (ds : List ℕ) : ℕ :=
  ds.foldl (fun a d => a * 10 + d) 0

/-- Rust `u64::from_str`: optional leading `+`, one or more decimal digits,
no other characters, value must fit in 64 bits. -/
def parseU64 (s : String) : Option ℕ :=
  let cs := match s.data with
    | '+' :: rest => rest
    | cs => cs
  if cs.isEmpty then none
  else match cs.mapM decDigit with
    | none => none
    | some ds =>
      let v := digitsToNat ds
      if v < 2 ^ 64 then some v else none

/-! ## Base58 decoding (`solana_sdk::pubkey::Pubkey::from_str`,
`solana_sdk::hash::Hash::from_str`): strict decode to exactly 32 bytes. -/

def base58Alphabet : List Char :=
  "123456789ABCDEFGHJKLMNPQRSTUVWXYZabcdefghijkmnopqrstuvwxyz".data

def base58DigitVal (c : Char) : Option ℕ :=
  base58Alphabet.indexOf? c

def natToBytesBEAux : ℕ → ℕ → List ℕ
  | 0, _ => []
  | fuel + 1, n => if n = 0 then [] else natToBytesBEAux fuel (n / 256) ++ [n % 256]

/-- Big-endian minimal byte representation of a natural number. -/
def natToBytesBE (n : ℕ) : List ℕ := natToBytesBEAux 64 n

def countLeadingZeroDigits : List ℕ → ℕ
  | 0 :: rest => countLeadingZeroDigits rest + 1
  | _ => 0

/-- A 32-byte account key / hash, as its byte list. -/
abbrev Pubkey := List ℕ

/-- Accept a byte list only when it is exactly 32 bytes long. -/
def check32 (bs : List ℕ) : Option Pubkey :=
  if bs.length = 32 then some bs else none

/-- Base58-decode to exactly 32 bytes; any other length, or any character
outside the base58 alphabet, is rejected (strict decode, no partial
acceptance). -/
def base58Decode32 (s : String) : Option Pubkey :=
  match s.data.mapM base58DigitVal with
  | none => none
  | some ds =>
    check32 (List.replicate (countLeadingZeroDigits ds) 0 ++
      natToBytesBE (ds.foldl (fun acc d => acc * 58 + d) 0))

/-- `utils::string_to_pub_key` (src/server/src/utils/mod.rs:9):
`Pubkey::from_str`. -/
def string_to_pub_key (s : String) : Option Pubkey := base58Decode32 s

/-- `solana_sdk::hash::Hash::from_str`: base58 decode of a 32-byte hash. -/
def hashFromStr (s : String) : Option Pubkey := base58Decode32 s

theorem check32_length {bs : List ℕ} {k : Pubkey}
    (h : check32 bs = some k) : k.length = 32 := by
  unfold check32 at h
  split at h
  · cases h; assumption
  · cases h

theorem base58Decode32_length {s : String} {k : Pubkey}
    (h : base58Decode32 s = some k) : k.length = 32 := by
  unfold base58Decode32 at h
  split at h
  · cases h
  · exact check32_length h

/-! ## IEEE-754 binary64 (`f64`), modelled exactly over the rationals.

The amount-scaling path of the three transfer builders is
`payload.amount.parse::<f64>()` followed by `(val * 10^decimals_as_f64) as u64`.
We embed binary64 numbers as sign/significand/exponent triples, with
round-to-nearest-even implemented by exact integer arithmetic, so that the
scaling arithmetic of the source is reproduced bit for bit. -/

inductive F64 where
  | nan : F64
  | inf : Bool → F64
  | fin : Bool → ℕ → ℤ → F64
deriving DecidableEq, Repr

/-- Fuelled base-2 logarithm (structurally recursive, so that every proof
below can be checked by kernel evaluation). -/
def log2Fuel : ℕ → ℕ → ℕ
  | 0, _ => 0
  | fuel + 1, n => if n ≥ 2 then log2Fuel fuel (n / 2) + 1 else 0

def natLog2 (n : ℕ) : ℕ := log2Fuel n n

/-- ⌊log₂ (n / d)⌋ for positive naturals `n`, `d`. -/
def qfloorLog2 (n d : ℕ) : ℤ :=
  let T := natLog2 d + 2
  (natLog2 (n * 2 ^ T / d) : ℤ) - T

/-- Round the positive rational `n / d` at exponent `e` half-to-even:
the nearest integer to `(n / d) / 2 ^ e`, ties to even. -/
def roundAtExp (n d : ℕ) (e : ℤ) : ℕ :=
  let num := n * 2 ^ (Int.toNat (-e))
  let den := d * 2 ^ (Int.toNat e)
  let q := num / den
  let r := num % den
  if 2 * r < den then q
  else if 2 * r > den then q + 1
  else if q % 2 = 0 then q else q + 1

/-- Fixpoint search for the binary64 exponent: adjusts the initial estimate
until the rounded significand is normalised (in `[2^52, 2^53)`, or subnormal
at the minimum exponent `-1074`). -/
def normRoundAux (n d : ℕ) : ℕ → ℤ → ℕ × ℤ
  | 0, e => (roundAtExp n d e, e)
  | fuel + 1, e =>
    let m := roundAtExp n d e
    if m ≥ 2 ^ 53 then normRoundAux n d fuel (e + 1)
    else if m < 2 ^ 52 ∧ e > -1074 then normRoundAux n d fuel (e - 1)
    else (m, e)

/-- Correctly round the rational `±(n / d)` to a binary64 value
(round-to-nearest, ties-to-even, with subnormals and overflow to infinity). -/
def roundQ (neg : Bool) (n d : ℕ) : F64 :=
  if n = 0 then .fin neg 0 0
  else
    let e0 := max (qfloorLog2 n d - 52) (-1074)
    let p := normRoundAux n d 8 e0
    if p.2 ≥ 972 then .inf neg
    else if p.1 = 0 then .fin neg 0 0
    else .fin neg p.1 p.2

/-- The exactly-representable binary64 value of a (small) natural number. -/
def f64OfNat (n : ℕ) : F64 := roundQ false n 1

/-- IEEE-754 binary64 multiplication (as in Rust `f64 * f64`). -/
def F64.mul : F64 → F64 → F64
  | .nan, _ => .nan
  | _, .nan => .nan
  | .inf s1, .inf s2 => .inf (xor s1 s2)
  | .inf s1, .fin s2 m _ => if m = 0 then .nan else .inf (xor s1 s2)
  | .fin s1 m _, .inf s2 => if m = 0 then .nan else .inf (xor s1 s2)
  | .fin s1 m1 e1, .fin s2 m2 e2 =>
    let s := xor s1 s2
    if m1 = 0 ∨ m2 = 0 then .fin s 0 0
    else
      let e := e1 + e2
      roundQ s (m1 * m2 * 2 ^ (Int.toNat e)) (2 ^ (Int.toNat (-e)))

/-- Rust `f64 as u64`: truncation toward zero, saturating at the bounds,
`NaN` to zero. -/
def F64.toU64 : F64 → ℕ
  | .nan => 0
  | .inf s => if s then 0 else 2 ^ 64 - 1
  | .fin s m e =>
    if s ∧ m ≠ 0 then 0
    else
      let t := if e ≥ 0 then m * 2 ^ (Int.toNat e) else m / 2 ^ (Int.toNat (-e))
      if t ≥ 2 ^ 64 then 2 ^ 64 - 1 else t

/-- Exact rational value of a finite `F64`. -/
def F64.toQ : F64 → ℚ
  | .nan => 0
  | .inf _ => 0
  | .fin s m e => (if s then -1 else 1) * (m : ℚ) * (2 : ℚ) ^ e

/-! ### Rust `f64::from_str`: grammar and correctly-rounded conversion. -/

def takeDigits : List Char → List ℕ × List Char
  | [] => ([], [])
  | c :: rest =>
    match decDigit c with
    | some d =>
      let p := takeDigits rest
      (d :: p.1, p.2)
    | none => ([], c :: rest)

inductive DecParse where
  | num : Bool → ℕ → ℤ → DecParse
  | pinf : DecParse
  | ninf : DecParse
  | nans : DecParse
  | bad : DecParse
deriving DecidableEq, Repr

def asciiLowerChar (c : Char) : Char :=
  if 'A' ≤ c ∧ c ≤ 'Z' then Char.ofNat (c.toNat + 32) else c

/-- Parse the number part after the sign: `digits [. digits] [(e|E) [sign] digits]`
with at least one mantissa digit required. Returns `(mantissa, decimal exponent)`. -/
def parseNumTail (cs : List Char) : Option (ℕ × ℤ) :=
  let p1 := takeDigits cs
  let ip := p1.1
  let afterInt := p1.2
  let p2 : List ℕ × List Char :=
    match afterInt with
    | '.' :: rest => takeDigits rest
    | _ => ([], afterInt)
  let fp := p2.1
  let afterFrac := if afterInt.head? = some '.' then p2.2 else afterInt
  if ip.isEmpty ∧ fp.isEmpty then none
  else
    let mant := digitsToNat (ip ++ fp)
    let base : ℤ := -(fp.length : ℤ)
    match afterFrac with
    | [] => some (mant, base)
    | e :: rest =>
      if e = 'e' ∨ e = 'E' then
        let signedRest : Bool × List Char :=
          match rest with
          | '-' :: r => (true, r)
          | '+' :: r => (false, r)
          | r => (false, r)
        let p3 := takeDigits signedRest.2
        if p3.1.isEmpty ∨ ¬p3.2.isEmpty then none
        else
          let ev : ℤ := digitsToNat p3.1
          some (mant, base + (if signedRest.1 then -ev else ev))
      else none

/-- The decimal grammar of Rust's `f64::from_str`: optional sign, then either
(case-insensitively) `inf`/`infinity`/`nan`, or a decimal number with optional
fraction and exponent. -/
def parseDecimal (s : String) : DecParse :=
  let p : Bool × List Char :=
    match s.data with
    | '-' :: rest => (true, rest)
    | '+' :: rest => (false, rest)
    | cs => (false, cs)
  let neg := p.1
  let low := p.2.map asciiLowerChar
  if low = "inf".data ∨ low = "infinity".data then
    if neg then .ninf else .pinf
  else if low = "nan".data then .nans
  else
    match parseNumTail p.2 with
    | none => .bad
    | some md => .num neg md.1 md.2

def log10Fuel : ℕ → ℕ → ℕ
  | 0, _ => 0
  | fuel + 1, n => if n ≥ 10 then log10Fuel fuel (n / 10) + 1 else 0

/-- Number of decimal digits of a positive natural. -/
def numDigits10 (n : ℕ) : ℕ := log10Fuel n n + 1

/-- Correctly round `±(mant · 10^dexp)` to binary64, with cheap exact cutoffs
for overflow (`≥ 10^400` is past the largest double) and underflow
(`< 10^(-400)` is below half the smallest subnormal). -/
def decRound (neg : Bool) (mant : ℕ) (dexp : ℤ) : F64 :=
  if mant = 0 then .fin neg 0 0
  else if dexp ≥ 400 then .inf neg
  else if dexp + (numDigits10 mant : ℤ) ≤ -400 then .fin neg 0 0
  else roundQ neg (mant * 10 ^ (Int.toNat dexp)) (10 ^ (Int.toNat (-dexp)))

/-- Rust `"...".parse::<f64>()`, correctly rounded as the standard library is. -/
def parseF64 (s : String) : Option F64 :=
  match parseDecimal s with
  | .bad => none
  | .pinf => some (.inf false)
  | .ninf => some (.inf true)
  | .nans => some .nan
  | .num neg mant dexp => some (decRound neg mant dexp)

/-- The exact rational value denoted by a decimal amount string (what the
human-readable amount means, before any floating-point rounding). -/
def parseDecimalExactQ (s : String) : Option ℚ :=
  match parseDecimal s with
  | .num neg mant dexp =>
    some ((if neg then -1 else 1) * (mant : ℚ) * (10 : ℚ) ^ dexp)
  | _ => none

/-! ## UTF-8 byte length (Rust `String::len` counts bytes, not characters) -/

def charUtf8 (c : Char) : List ℕ :=
  let n := c.toNat
  if n < 0x80 then [n]
  else if n < 0x800 then [0xC0 + n / 64, 0x80 + n % 64]
  else if n < 0x10000 then [0xE0 + n / 4096, 0x80 + n / 64 % 64, 0x80 + n % 64]
  else [0xF0 + n / 262144, 0x80 + n / 4096 % 64, 0x80 + n / 64 % 64, 0x80 + n % 64]

def strUtf8 (s : String) : List ℕ :=
  s.data.foldr (fun c acc => charUtf8 c ++ acc) []

/-- Rust `str::len`: the number of UTF-8 bytes. -/
def byteLen (s : String) : ℕ := (strUtf8 s).length

/-! ## The memo encoder (`build_memo`, src/server/src/main.rs:202) -/

def memoFormat (token_type sender recipient : String) (amount : ℕ) (yid notes_part : String) :
    String :=
  "fuego|" ++ token_type ++ "|f:" ++ sender ++ "|t:" ++ recipient ++ "|a:" ++
    toString amount ++ "|yid:" ++ yid ++ "|n:" ++ notes_part

/-- `build_memo(token_type, from, to, amount, yid, notes)`: rejects a note of
more than 16 bytes, otherwise renders the fixed-grammar memo string. -/
def build_memo (token_type sender recipient : String) (amount : ℕ) (yid : String)
    (notes : Option String) : Except String String :=
  match notes with
  | some n =>
    if byteLen n > 16 then
      .error ("Notes must be 16 characters or less, got " ++ toString (byteLen n))
    else .ok (memoFormat token_type sender recipient amount yid n)
  | none => .ok (memoFormat token_type sender recipient amount yid "")

/-! ## Instructions (solana-sdk / spl-token / spl-memo / compute-budget)

Only the pieces the handlers call are embedded; byte encodings follow the
libraries exactly (little-endian fields, enum tags). -/

structure AccountMeta where
  pubkey : Pubkey
  is_signer : Bool
  is_writable : Bool
deriving DecidableEq, Repr

structure Instruction where
  program_id : Pubkey
  accounts : List AccountMeta
  data : List ℕ
deriving DecidableEq, Repr

def leBytesAux : ℕ → ℕ → List ℕ
  | 0, _ => []
  | k + 1, n => n % 256 :: leBytesAux k (n / 256)

def le32 (n : ℕ) : List ℕ := leBytesAux 4 n

def le64 (n : ℕ) : List ℕ := leBytesAux 8 n

def pkConst (s : String) : Pubkey := (base58Decode32 s).getD []

def systemProgramId : Pubkey := pkConst "11111111111111111111111111111111"

def tokenProgramId : Pubkey := pkConst "TokenkegQfeZyiNwAJbNbGKPFXCWuBvf9Ss623VQ5DA"

def memoProgramId : Pubkey := pkConst "MemoSq4gqABAXKb96qnH8TysNcWxMyWCqXgDLGmfcHr"

def computeBudgetProgramId : Pubkey :=
  pkConst "ComputeBudget111111111111111111111111111111"

/-- `ComputeBudgetInstruction::set_compute_unit_limit` (borsh tag 2, u32). -/
def setComputeUnitLimit (n : ℕ) : Instruction :=
  ⟨computeBudgetProgramId, [], 2 :: le32 n⟩

/-- `ComputeBudgetInstruction::set_compute_unit_price` (borsh tag 3, u64). -/
def setComputeUnitPrice (n : ℕ) : Instruction :=
  ⟨computeBudgetProgramId, [], 3 :: le64 n⟩

/-- `spl_token::instruction::transfer` (tag 3): always succeeds in the
handlers since the program id passed is the spl-token id itself. -/
def splTransfer (source dest authority : Pubkey) (signerKeys : List Pubkey)
    (amount : ℕ) : Instruction :=
  ⟨tokenProgramId,
    [⟨source, false, true⟩, ⟨dest, false, true⟩,
      ⟨authority, signerKeys.isEmpty, false⟩] ++
      signerKeys.map (fun k => ⟨k, true, false⟩),
    3 :: le64 amount⟩

/-- `spl_token::instruction::transfer_checked` (tag 12). -/
def splTransferChecked (source mint dest authority : Pubkey)
    (signerKeys : List Pubkey) (amount decimals : ℕ) : Instruction :=
  ⟨tokenProgramId,
    [⟨source, false, true⟩, ⟨mint, false, false⟩, ⟨dest, false, true⟩,
      ⟨authority, signerKeys.isEmpty, false⟩] ++
      signerKeys.map (fun k => ⟨k, true, false⟩),
    12 :: le64 amount ++ [decimals]⟩

/-- `solana_sdk::system_instruction::transfer` (bincode variant 2, u64). -/
def systemTransfer (sender recipient : Pubkey) (lamports : ℕ) : Instruction :=
  ⟨systemProgramId, [⟨sender, true, true⟩, ⟨recipient, false, true⟩],
    2 :: 0 :: 0 :: 0 :: le64 lamports⟩

/-- `spl_memo::build_memo(memo_bytes, signer_pubkeys)`: the memo text's UTF-8
bytes as data, a read-only signer meta per supplied signer key. -/
def memoInstruction (memoText : String) (signerKeys : List Pubkey) : Instruction :=
  ⟨memoProgramId, signerKeys.map (fun k => ⟨k, true, false⟩), strUtf8 memoText⟩

/-- Modelled from the spec: `get_associated_token_address` — "deterministically
computes a token-holding sub-account address from (owner key, token-mint key)
using the network's defined derivation rule"; the SHA-256 program-derived
address is abstracted to an injective byte-level pairing (determinism
preserved, and derived values are 65 bytes long so they never collide with
32-byte account keys). -/
def get_associated_token_address (owner mint : Pubkey) : Pubkey :=
  255 :: owner ++ mint

/-! ## Message compilation and transactions (`Message::new_with_blockhash`,
`Transaction::new_unsigned`, `Transaction::try_partial_sign`)

`Message::new_with_blockhash` compiles the unique account keys into the
segments [payer, writable signers, read-only signers, writable non-signers,
read-only non-signers], each segment (after the forced-first payer) in
byte-lexicographic key order, exactly as solana-sdk's `CompiledKeys`
(a `BTreeMap` keyed by pubkey) produces them. -/

def metasOf (instrs : List Instruction) (payer : Pubkey) : List AccountMeta :=
  ⟨payer, true, true⟩ ::
    (instrs.foldr (fun i acc => i.accounts ++ acc) [] ++
      instrs.map (fun i => ⟨i.program_id, false, false⟩))

def keyIsSigner (ms : List AccountMeta) (k : Pubkey) : Bool :=
  ms.any (fun m => m.pubkey == k && m.is_signer)

def keyIsWritable (ms : List AccountMeta) (k : Pubkey) : Bool :=
  ms.any (fun m => m.pubkey == k && m.is_writable)

def dedupKeysAux : ℕ → List Pubkey → List Pubkey
  | 0, _ => []
  | _ + 1, [] => []
  | fuel + 1, k :: rest => k :: dedupKeysAux fuel (rest.filter (fun x => !(x == k)))

def dedupKeys (l : List Pubkey) : List Pubkey := dedupKeysAux l.length l

/-- Byte-lexicographic order on keys (the `Ord` of `Pubkey` driving the
`BTreeMap` iteration order). -/
def keyLe : List ℕ → List ℕ → Bool
  | [], _ => true
  | _ :: _, [] => false
  | a :: as, b :: bs => if a < b then true else if b < a then false else keyLe as bs

def insertKey (k : Pubkey) : List Pubkey → List Pubkey
  | [] => [k]
  | x :: xs => if keyLe k x then k :: x :: xs else x :: insertKey k xs

def sortKeys (l : List Pubkey) : List Pubkey := l.foldr insertKey []

structure Message where
  numRequiredSignatures : ℕ
  account_keys : List Pubkey
  recent_blockhash : Pubkey
  instructions : List Instruction
deriving DecidableEq, Repr

/-- The four sorted key segments after the payer: writable signers, read-only
signers, writable non-signers, read-only non-signers. -/
def keySegments (instrs : List Instruction) (payer : Pubkey) :
    List Pubkey × List Pubkey × List Pubkey × List Pubkey :=
  let ms := metasOf instrs payer
  let others := (dedupKeys (ms.map (·.pubkey))).filter (fun k => !(k == payer))
  (sortKeys (others.filter (fun k => keyIsSigner ms k && keyIsWritable ms k)),
    sortKeys (others.filter (fun k => keyIsSigner ms k && !keyIsWritable ms k)),
    sortKeys (others.filter (fun k => !keyIsSigner ms k && keyIsWritable ms k)),
    sortKeys (others.filter (fun k => !keyIsSigner ms k && !keyIsWritable ms k)))

def Message.new_with_blockhash (instrs : List Instruction) (payer : Pubkey)
    (bh : Pubkey) : Message :=
  let segs := keySegments instrs payer
  { numRequiredSignatures := 1 + segs.1.length + segs.2.1.length,
    account_keys := payer :: (segs.1 ++ segs.2.1 ++ segs.2.2.1 ++ segs.2.2.2),
    recent_blockhash := bh,
    instructions := instrs }

inductive Signature where
  | dflt : Signature
  | signed : Pubkey → Signature
deriving DecidableEq, Repr

structure Transaction where
  signatures : List Signature
  message : Message
deriving DecidableEq, Repr

/-- `Transaction::new_unsigned`: one all-zero (default) signature slot per
required signer. -/
def Transaction.new_unsigned (m : Message) : Transaction :=
  ⟨List.replicate m.numRequiredSignatures .dflt, m⟩

structure Keypair where
  bytes : List ℕ
deriving DecidableEq, Repr

def Keypair.pubkey (kp : Keypair) : Pubkey := kp.bytes.drop 32

/-- `Keypair::from_bytes`: a 64-byte array, secret half then public half;
anything of another length is rejected (the ed25519 point-validity check on
the public half is abstracted — the length requirement alone is what the
claims exercise). -/
def Keypair.fromBytes (bs : List ℕ) : Option Keypair :=
  if bs.length = 64 then some ⟨bs⟩ else none

/-- First position of a key in a key list (the signer-position search of
`try_partial_sign`). -/
def findKeyIdx (k : Pubkey) : List Pubkey → Option ℕ
  | [] => none
  | x :: xs => if x = k then some 0 else (findKeyIdx k xs).map (· + 1)

/-- `Transaction::try_partial_sign` with a single keypair: re-binds the
blockhash, locates the keypair's pubkey among the required signers and fills
exactly that signature slot; fails if the pubkey is not a required signer. -/
def Transaction.addLocalSignature (tx : Transaction) (kp : Keypair)
    (bh : Pubkey) : Except String Transaction :=
  let m := { tx.message with recent_blockhash := bh }
  let signers := m.account_keys.take m.numRequiredSignatures
  match findKeyIdx kp.pubkey signers with
  | none => .error "keypair-pubkey-mismatch"
  | some i =>
    .ok { signatures := tx.signatures.set i (.signed kp.pubkey), message := m }

/-! ## The three transfer builders
(`build_transfer_usdc` src/server/src/main.rs:399, `build_transfer_sol` :549,
`build_transfer_usdt` :669)

The single RPC interaction of a builder — the `get_latest_blockhash` fetch —
is an oracle argument, and every RPC call the handler issues is recorded in
an emitted call list, in program order.  Failure responses
`{success:false, error}` are the `.error` branch, carrying the exact error
string of the source; the success payload carries the built (unsigned)
transaction, the blockhash and the memo text that the handler serialises
into its JSON response (bincode serialisation of a well-formed transaction
cannot fail and is left abstract). -/

def USDC_MINT : String := "EPjFWdd5AufqSSqeM2qN1xzybapC8G4wEGGkZwyTDt1v"

def USDT_MINT : String := "Es9vMFrzaCERmJfrF4H2FYD4KCoNkY11McCe8BenEqw"

structure TransferRequest where
  network : String
  from_address : String
  to_address : String
  amount : String
  yid : String
  notes : Option String
  fee_amount : Option String
deriving DecidableEq, Repr

inductive NetCall where
  | getLatestBlockhash : NetCall
deriving DecidableEq, Repr

structure BuildOk where
  tx : Transaction
  blockhash : Pubkey
  memoText : String
deriving DecidableEq, Repr

/-- The compute-unit price used by the SOL and USDC builders:
`payload.fee_amount.as_ref().and_then(|f| f.parse::<u64>().ok()).unwrap_or(0)`. -/
def feePriceOrZero (fee_amount : Option String) : ℕ :=
  (fee_amount.bind parseU64).getD 0

def build_transfer_usdc (rpc : Except String Pubkey) (payload : TransferRequest) :
    List NetCall × Except String BuildOk :=
  ([.getLatestBlockhash],
    match rpc with
    | .error e => .error ("Failed to fetch blockhash: " ++ e)
    | .ok blockhash =>
      match string_to_pub_key payload.from_address with
      | none => .error "Invalid from_address"
      | some from_pubkey =>
        match string_to_pub_key payload.to_address with
        | none => .error "Invalid to_address"
        | some to_pubkey =>
          match string_to_pub_key USDC_MINT with
          | none => .error "Invalid USDC mint"
          | some usdc_mint =>
            let source_token_account :=
              get_associated_token_address from_pubkey usdc_mint
            let destination_token_account :=
              get_associated_token_address to_pubkey usdc_mint
            match parseF64 payload.amount with
            | none => .error "Invalid amount"
            | some v =>
              let amount := (F64.mul v (f64OfNat 1000000)).toU64
              match build_memo "USDC" payload.from_address payload.to_address
                  amount payload.yid payload.notes with
              | .error e => .error e
              | .ok memo_text =>
                let transfer_instruction := splTransfer source_token_account
                  destination_token_account from_pubkey [from_pubkey] amount
                let memo_instruction := memoInstruction memo_text []
                let compute_limit := setComputeUnitLimit 100000
                let unit_price :=
                  setComputeUnitPrice (feePriceOrZero payload.fee_amount)
                let message := Message.new_with_blockhash
                  [compute_limit, unit_price, transfer_instruction,
                    memo_instruction] from_pubkey blockhash
                .ok ⟨Transaction.new_unsigned message, blockhash, memo_text⟩)

def build_transfer_sol (rpc : Except String Pubkey) (payload : TransferRequest) :
    List NetCall × Except String BuildOk :=
  ([.getLatestBlockhash],
    match rpc with
    | .error e => .error ("Failed to fetch blockhash: " ++ e)
    | .ok blockhash =>
      match string_to_pub_key payload.from_address with
      | none => .error "Invalid from_address"
      | some from_pubkey =>
        match string_to_pub_key payload.to_address with
        | none => .error "Invalid to_address"
        | some to_pubkey =>
          match parseF64 payload.amount with
          | none => .error "Invalid amount"
          | some v =>
            let amount_lamports := (F64.mul v (f64OfNat 1000000000)).toU64
            match build_memo "SOL" payload.from_address payload.to_address
                amount_lamports payload.yid payload.notes with
            | .error e => .error e
            | .ok memo_text =>
              let transfer_instruction :=
                systemTransfer from_pubkey to_pubkey amount_lamports
              let memo_instruction := memoInstruction memo_text []
              let compute_limit := setComputeUnitLimit 100000
              let unit_price :=
                setComputeUnitPrice (feePriceOrZero payload.fee_amount)
              let message := Message.new_with_blockhash
                [compute_limit, unit_price, transfer_instruction,
                  memo_instruction] from_pubkey blockhash
              .ok ⟨Transaction.new_unsigned message, blockhash, memo_text⟩)

def build_transfer_usdt (rpc : Except String Pubkey) (payload : TransferRequest) :
    List NetCall × Except String BuildOk :=
  ([.getLatestBlockhash],
    match rpc with
    | .error e => .error ("Failed to fetch blockhash: " ++ e)
    | .ok blockhash =>
      match string_to_pub_key payload.from_address with
      | none => .error "Invalid from_address"
      | some from_pubkey =>
        match string_to_pub_key payload.to_address with
        | none => .error "Invalid to_address"
        | some to_pubkey =>
          match string_to_pub_key USDT_MINT with
          | none => .error "Invalid USDT mint"
          | some usdt_mint =>
            let from_ata := get_associated_token_address from_pubkey usdt_mint
            let to_ata := get_associated_token_address to_pubkey usdt_mint
            match parseF64 payload.amount with
            | none => .error "Invalid amount format"
            | some amount_ui =>
              let amount := (F64.mul amount_ui (f64OfNat 1000000)).toU64
              let compute_limit := setComputeUnitLimit 300000
              let unit_price := setComputeUnitPrice 100
              let transfer_instruction :=
                splTransfer from_ata to_ata from_pubkey [] amount
              let memo_text :=
                match build_memo "USDT" payload.from_address payload.to_address
                    amount payload.yid payload.notes with
                | .ok m => m
                | .error _ => ""
              let memo_instruction := memoInstruction memo_text [from_pubkey]
              let message := Message.new_with_blockhash
                [compute_limit, unit_price, transfer_instruction,
                  memo_instruction] from_pubkey blockhash
              .ok ⟨Transaction.new_unsigned message, blockhash, memo_text⟩)

inductive Asset where
  | SOL : Asset
  | USDC : Asset
  | USDT : Asset
deriving DecidableEq, Repr

def buildTransfer : Asset → Except String Pubkey → TransferRequest →
    List NetCall × Except String BuildOk
  | .SOL => build_transfer_sol
  | .USDC => build_transfer_usdc
  | .USDT => build_transfer_usdt

/-! ## Base64 (the `base64` crate's `general_purpose::STANDARD` engine):
canonical padded decoding, rejecting foreign characters, bad lengths and
non-zero trailing bits. -/

def b64Val (c : Char) : Option ℕ :=
  if 'A' ≤ c ∧ c ≤ 'Z' then some (c.toNat - 65)
  else if 'a' ≤ c ∧ c ≤ 'z' then some (c.toNat - 97 + 26)
  else if '0' ≤ c ∧ c ≤ '9' then some (c.toNat - 48 + 52)
  else if c = '+' then some 62
  else if c = '/' then some 63
  else none

def b64Groups : List Char → Option (List ℕ)
  | [] => some []
  | a :: b :: c :: d :: rest =>
    match b64Val a, b64Val b with
    | some va, some vb =>
      if c = '=' then
        if d = '=' ∧ rest = [] ∧ vb % 16 = 0 then some [va * 4 + vb / 16]
        else none
      else
        match b64Val c with
        | some vc =>
          if d = '=' then
            if rest = [] ∧ vc % 4 = 0 then
              some [va * 4 + vb / 16, vb % 16 * 16 + vc / 4]
            else none
          else
            match b64Val d with
            | some vd =>
              (b64Groups rest).map
                (fun t => (va * 4 + vb / 16) :: (vb % 16 * 16 + vc / 4) ::
                  (vc % 4 * 64 + vd) :: t)
            | none => none
        | none => none
    | _, _ => none
  | _ => none

def base64Decode (s : String) : Option (List ℕ) := b64Groups s.data

/-! ## The legacy transaction wire format and the submit handler
(`submit_transaction`, src/server/src/main.rs:792) -/

structure RawInstr where
  programIdx : ℕ
  acctIdxs : List ℕ
  data : List ℕ
deriving DecidableEq, Repr

structure RawMessage where
  numRequired : ℕ
  roSigned : ℕ
  roUnsigned : ℕ
  keys : List (List ℕ)
  bh : List ℕ
  instrs : List RawInstr
deriving DecidableEq, Repr

structure LegacyTx where
  sigs : List (List ℕ)
  msg : RawMessage
deriving DecidableEq, Repr

def readN (n : ℕ) (bs : List ℕ) : Option (List ℕ × List ℕ) :=
  if n ≤ bs.length then some (bs.take n, bs.drop n) else none

/-- A sequence-length byte of the legacy wire format.  Legacy transactions
within the network's packet bound hold fewer than 128 signatures, account
keys or instructions, so a well-formed legacy length is a single byte below
`0x80`; a first byte with the high bit set is the versioned-format marker,
which the legacy decoder must reject. -/
def readLen : List ℕ → Option (ℕ × List ℕ)
  | [] => none
  | b :: rest => if b < 128 then some (b, rest) else none

def readItems {α : Type} (read1 : List ℕ → Option (α × List ℕ)) :
    ℕ → List ℕ → Option (List α × List ℕ)
  | 0, bs => some ([], bs)
  | n + 1, bs =>
    match read1 bs with
    | none => none
    | some (x, rest) => (readItems read1 n rest).map (fun p => (x :: p.1, p.2))

def readInstr : List ℕ → Option (RawInstr × List ℕ)
  | [] => none
  | pidx :: rest =>
    match readLen rest with
    | none => none
    | some (na, r1) =>
      match readN na r1 with
      | none => none
      | some (idxs, r2) =>
        match readLen r2 with
        | none => none
        | some (nd, r3) =>
          match readN nd r3 with
          | none => none
          | some (dat, r4) => some (⟨pidx, idxs, dat⟩, r4)

/-- Modelled from the spec: the `bincode` deserialisation of a legacy
`solana_sdk::transaction::Transaction` (library code, not part of this
repository) — "binary-deserialize into the expected wire format (no
cross-format fallback — a versioned blob submitted to the legacy endpoint
must fail with a clear decode error)".  Signature list, then message header,
account keys, recent blockhash and compiled instructions, consuming the blob
exactly; a leading byte with the versioned-format marker (high bit set)
fails. -/
def deserializeLegacyTx (bs : List ℕ) : Option LegacyTx :=
  match readLen bs with
  | none => none
  | some (nsigs, r1) =>
    match readItems (readN 64) nsigs r1 with
    | none => none
    | some (sigs, r2) =>
      match r2 with
      | numReq :: roS :: roU :: r3 =>
        match readLen r3 with
        | none => none
        | some (nkeys, r4) =>
          match readItems (readN 32) nkeys r4 with
          | none => none
          | some (keys, r5) =>
            match readN 32 r5 with
            | none => none
            | some (bh, r6) =>
              match readLen r6 with
              | none => none
              | some (ninstr, r7) =>
                match readItems readInstr ninstr r7 with
                | none => none
                | some (instrs, r8) =>
                  if r8 = [] then
                    some ⟨sigs, ⟨numReq, roS, roU, keys, bh, instrs⟩⟩
                  else none
      | _ => none

structure SubmitRequest where
  network : String
  transaction : String
  commitment : Option String
deriving DecidableEq, Repr

inductive SubmitCall where
  | sendTransaction : LegacyTx → SubmitCall
deriving DecidableEq, Repr

/-- `submit_transaction`: base64-decode, deserialize as a legacy transaction,
and forward the decoded transaction — unaltered — to the network's submit
call; on success the handler responds with the returned signature (the
explorer link it also renders is derived from that signature alone). -/
def submit_transaction (rpcSend : LegacyTx → Except String String)
    (payload : SubmitRequest) : List SubmitCall × Except String String :=
  match base64Decode payload.transaction with
  | none => ([], .error "Failed to decode transaction - invalid base64")
  | some tx_bytes =>
    match deserializeLegacyTx tx_bytes with
    | none => ([], .error "Failed to deserialize transaction")
    | some transaction =>
      ([.sendTransaction transaction],
        match rpcSend transaction with
        | .ok signature => .ok signature
        | .error e => .error ("Failed to submit transaction: " ++ e))

/-! ## Transaction history (`get_fuego_transactions` src/server/src/main.rs:850,
`get_all_transactions` :906) -/

structure SigInfo where
  signature : String
  memo : Option String
  slot : ℕ
deriving DecidableEq, Repr

structure HistoryRequest where
  address : String
  network : String
  limit : Option ℕ
deriving DecidableEq, Repr

inductive HistCall where
  | getSignaturesForAddress : Pubkey → Option ℕ → HistCall
deriving DecidableEq, Repr

/-- Rust `str::to_lowercase` restricted to ASCII (the needle `"fuego"` is
ASCII, for which the two coincide). -/
def lowercaseAscii (s : String) : String := ⟨s.data.map asciiLowerChar⟩

def leadMatch : List Char → List Char → Bool
  | [], _ => true
  | _ :: _, [] => false
  | a :: as, b :: bs => a == b && leadMatch as bs

def occursIn (needle : List Char) : List Char → Bool
  | [] => leadMatch needle []
  | c :: t => leadMatch needle (c :: t) || occursIn needle t

/-- `sig_info.memo.to_lowercase().contains("fuego")`. -/
def memoContainsFuego (m : String) : Bool :=
  occursIn "fuego".data (lowercaseAscii m).data

def fuegoFilterKeeps (si : SigInfo) : Bool :=
  match si.memo with
  | some m => memoContainsFuego m
  | none => false

def get_fuego_transactions (fetch : Except String (List SigInfo))
    (payload : HistoryRequest) : List HistCall × Except String (List SigInfo) :=
  match string_to_pub_key payload.address with
  | none => ([], .error "Invalid wallet address")
  | some user_pubkey =>
    let lim : Option ℕ :=
      match payload.limit with
      | some l => some l
      | none => some 10
    ([.getSignaturesForAddress user_pubkey lim],
      match fetch with
      | .error _ => .error "Could not retrieve signatures for account"
      | .ok signatures => .ok (signatures.filter fuegoFilterKeeps))

def get_all_transactions (fetch : Except String (List SigInfo))
    (payload : HistoryRequest) : List HistCall × Except String (List SigInfo) :=
  match string_to_pub_key payload.address with
  | none => ([], .error "Invalid wallet address")
  | some user_pubkey =>
    let lim : Option ℕ :=
      match payload.limit with
      | some l => some l
      | none => some 20
    ([.getSignaturesForAddress user_pubkey lim],
      match fetch with
      | .error _ => .error "Could not retrieve signatures for account"
      | .ok signatures => .ok signatures)

/-! ## The conditional-payment (x402) flow (`x402_request`,
src/server/src/main.rs:956), from the point where a Solana payment
requirement has been selected and the wallet file parsed: build the payment
with the remote party's fee payer, decimals and blockhash, then partially
sign it with the local keypair.  The `.unwrap()` on
`Keypair::from_bytes(&wallet_store.private_key)` at src/server/src/main.rs:1174
is the one fallible step without a handler: its failure is a panic, not a
`{success:false, error}` response, which the `panicked` outcome records.
(The `.unwrap()` on `transfer_checked` at :1158 cannot fail: its only failure
mode is a program-id check against the constant spl-token id.) -/

structure X402Extra where
  fee_payer : String
  decimals : ℕ
  recent_blockhash : String
deriving DecidableEq, Repr

structure X402PaymentRequirement where
  asset : String
  pay_to : String
  max_amount_required : String
  network : String
  scheme : String
  extra : X402Extra
deriving DecidableEq, Repr

structure WalletStore where
  private_key : List ℕ
  address : String
  network : String
deriving DecidableEq, Repr

inductive X402Outcome where
  | panicked : String → X402Outcome
  | failed : String → X402Outcome
  | paymentBuilt : Transaction → ℕ → X402Outcome
deriving DecidableEq, Repr

def x402_build_payment (wallet_store : WalletStore)
    (solana_req : X402PaymentRequirement) : X402Outcome :=
  match string_to_pub_key wallet_store.address with
  | none => .failed "Invalid wallet address"
  | some from_pubkey =>
    match string_to_pub_key solana_req.pay_to with
    | none => .failed "Invalid recipient address"
    | some to_pubkey =>
      match string_to_pub_key solana_req.extra.fee_payer with
      | none => .failed "Invalid fee payer address in Solana payment requirement"
      | some fee_payer =>
        match string_to_pub_key USDC_MINT with
        | none => .failed "Invalid USDC mint"
        | some usdc_mint =>
          match hashFromStr solana_req.extra.recent_blockhash with
          | none => .failed "Invalid blockhash format in Solana payment requirement"
          | some blockhash =>
            match parseU64 solana_req.max_amount_required with
            | none => .failed "Invalid payment amount"
            | some amount =>
              let source_ata := get_associated_token_address from_pubkey usdc_mint
              let dest_ata := get_associated_token_address to_pubkey usdc_mint
              let transfer_instruction := splTransferChecked source_ata usdc_mint
                dest_ata from_pubkey [from_pubkey] amount solana_req.extra.decimals
              let compute_limit := setComputeUnitLimit 300000
              let unit_price := setComputeUnitPrice 5000
              let message := Message.new_with_blockhash
                [compute_limit, unit_price, transfer_instruction] fee_payer blockhash
              let transaction := Transaction.new_unsigned message
              match Keypair.fromBytes wallet_store.private_key with
              | none => .panicked "called Result::unwrap() on an Err value"
              | some keypair =>
                match transaction.addLocalSignature keypair blockhash with
                | .error e => .failed ("Failed to sign transaction: " ++ e)
                | .ok tx => .paymentBuilt tx amount

/-! ## Derived descriptions used by the statements below -/

/-- The amount-scaling computation shared by the builders
(src/server/src/main.rs:457, :592, :737): parse the human amount as `f64`,
multiply by the scale factor as `f64`, cast to `u64`. -/
def scaleToBaseUnits (scale : ℕ) (s : String) : Option ℕ :=
  (parseF64 s).map (fun v => (F64.mul v (f64OfNat scale)).toU64)

/-- The per-asset compute-unit limit (100_000 / 100_000 / 300_000). -/
def cuLimitOf : Asset → ℕ
  | .SOL => 100000
  | .USDC => 100000
  | .USDT => 300000

/-- The compute-unit price each builder actually sets: the parsed
`fee_amount` (default 0) for SOL and USDC, the constant 100 for USDT. -/
def cuPriceOf : Asset → Option String → ℕ
  | .SOL, f => feePriceOrZero f
  | .USDC, f => feePriceOrZero f
  | .USDT, _ => 100

/-- The transfer-program id per asset (system program for SOL, spl-token
for the two stablecoins). -/
def transferProgramOf : Asset → Pubkey
  | .SOL => systemProgramId
  | .USDC => tokenProgramId
  | .USDT => tokenProgramId

/-- The error string each builder returns for a non-numeric amount. -/
def amountErrMsg : Asset → String
  | .SOL => "Invalid amount"
  | .USDC => "Invalid amount"
  | .USDT => "Invalid amount format"

/-- The parsed USDC mint constant. -/
def usdcMintKey : Pubkey := pkConst USDC_MINT

/-- The parsed USDT mint constant. -/
def usdtMintKey : Pubkey := pkConst USDT_MINT

/-! ## Shared lemmas -/

theorem usdc_mint_parses : string_to_pub_key USDC_MINT = some usdcMintKey := by
  decide

theorem usdt_mint_parses : string_to_pub_key USDT_MINT = some usdtMintKey := by
  decide

theorem build_memo_ok (t s r : String) (a : ℕ) (y : String) (n : Option String)
    (h : ∀ x, n = some x → byteLen x ≤ 16) :
    build_memo t s r a y n = .ok (memoFormat t s r a y (n.getD "")) := by
  cases n with
  | none => rfl
  | some x =>
    have hx := h x rfl
    simp [build_memo, Nat.not_lt_of_le hx, Option.getD]

theorem build_memo_err (t s r : String) (a : ℕ) (y x : String)
    (h : byteLen x > 16) :
    build_memo t s r a y (some x) =
      .error ("Notes must be 16 characters or less, got " ++ toString (byteLen x)) := by
  simp [build_memo, h]

/-! ## Claim theorems -/

/-- C3 counterexample: the claim says the base-unit amount always equals the
human amount times `10^decimals` truncated toward zero, but for the decimal
amount string `"0.1281"` at scale 6 the source's float-multiply-then-cast
pipeline produces 128099 while the exact product `0.1281 × 10^6 = 128100` is
an integer, so exact truncation gives 128100. -/
theorem c3_counterexample :
    scaleToBaseUnits 1000000 "0.1281" = some 128099 ∧
    parseDecimal "0.1281" = .num false 1281 (-4) ∧
    ⌊(1281 : ℚ) * (10 : ℚ) ^ (-4 : ℤ) * 10 ^ 6⌋ = 128100 ∧
    (128099 : ℕ) ≠ 128100 := by
  refine ⟨by decide, by decide, ?_, by decide⟩
  have h : (1281 : ℚ) * (10 : ℚ) ^ (-4 : ℤ) * 10 ^ 6 = ((128100 : ℤ) : ℚ) := by
    rw [show ((-4 : ℤ)) = -((4 : ℕ) : ℤ) by rfl, zpow_neg, zpow_natCast]
    norm_num
  rw [h]
  exact Int.floor_intCast 128100

theorem toU64_of_natExp (m k : ℕ) :
    (F64.fin false m (k : ℤ)).toU64 =
      if m * 2 ^ k ≥ 2 ^ 64 then 2 ^ 64 - 1 else m * 2 ^ k := by
  have hcond : ((k : ℤ) ≥ 0) := Int.ofNat_nonneg k
  simp only [F64.toU64, Bool.false_eq_true, false_and, if_false, ge_iff_le,
    if_pos (show (0 : ℤ) ≤ (k : ℤ) from hcond), Int.toNat_natCast]

theorem toU64_of_negExp (m k : ℕ) (hk : 0 < k) :
    (F64.fin false m (-(k : ℤ))).toU64 =
      if m / 2 ^ k ≥ 2 ^ 64 then 2 ^ 64 - 1 else m / 2 ^ k := by
  have hcond : ¬ ((0 : ℤ) ≤ -(k : ℤ)) := by omega
  simp only [F64.toU64, Bool.false_eq_true, false_and, if_false, ge_iff_le,
    if_neg hcond, neg_neg, Int.toNat_natCast]

/-- C3 (amended): the base-unit amount is computed by IEEE-754 binary64
multiplication followed by an integer cast; the cast truncates the *float
product* toward zero (for a non-negative in-range float it is exactly the
floor of the float's value), which can differ by one from exact truncation
of the human amount times `10^decimals`.  The claim's two examples hold:
`"1.5"` at scale 6 gives 1 500 000 and `"0.000000001"` at scale 9 gives 1. -/
theorem c3_theorem :
    scaleToBaseUnits 1000000 "1.5" = some 1500000 ∧
    scaleToBaseUnits 1000000000 "0.000000001" = some 1 ∧
    ∀ (m : ℕ) (e : ℤ), ((F64.fin false m e).toQ < 2 ^ 64) →
      ((F64.fin false m e).toU64 : ℤ) = ⌊(F64.fin false m e).toQ⌋ := by
  refine ⟨by decide, by decide, ?_⟩
  intro m e hlt
  have hval : (F64.fin false m e).toQ = (m : ℚ) * (2 : ℚ) ^ e := by
    simp [F64.toQ]
  rw [hval] at hlt ⊢
  rcases le_or_lt 0 e with he | he
  · obtain ⟨k, rfl⟩ : ∃ k : ℕ, e = (k : ℤ) := ⟨e.toNat, (Int.toNat_of_nonneg he).symm⟩
    have hq : (m : ℚ) * (2 : ℚ) ^ (k : ℤ) = ((m * 2 ^ k : ℕ) : ℚ) := by
      rw [zpow_natCast]
      push_cast
      ring
    rw [hq] at hlt ⊢
    have hlt2 : m * 2 ^ k < 2 ^ 64 := by
      have h64 : ((2 : ℚ) ^ 64) = ((2 ^ 64 : ℕ) : ℚ) := by push_cast; ring
      rw [h64] at hlt
      exact_mod_cast hlt
    rw [toU64_of_natExp, if_neg (by omega), Int.floor_natCast]
  · obtain ⟨k, hk, rfl⟩ : ∃ k : ℕ, 0 < k ∧ e = -(k : ℤ) :=
      ⟨(-e).toNat, by omega, by omega⟩
    have hq : (m : ℚ) * (2 : ℚ) ^ (-(k : ℤ)) = (m : ℚ) / ((2 ^ k : ℕ) : ℚ) := by
      rw [zpow_neg, zpow_natCast]
      push_cast
      ring
    have hfloor : ⌊(m : ℚ) * (2 : ℚ) ^ (-(k : ℤ))⌋ = ((m / 2 ^ k : ℕ) : ℤ) := by
      rw [hq]
      have h1 := Rat.floor_intCast_div_natCast (m : ℤ) (2 ^ k)
      have h2 : (((m : ℤ) : ℚ)) = (m : ℚ) := by push_cast; ring
      rw [h2] at h1
      rw [h1]
      exact (Int.ofNat_div m (2 ^ k)).symm
    have hle : ((m / 2 ^ k : ℕ) : ℚ) ≤ (m : ℚ) * (2 : ℚ) ^ (-(k : ℤ)) := by
      rw [hq]
      exact_mod_cast Nat.cast_div_le
    have hsat : m / 2 ^ k < 2 ^ 64 := by
      by_contra hge
      push_neg at hge
      have hc : ((2 ^ 64 : ℕ) : ℚ) ≤ ((m / 2 ^ k : ℕ) : ℚ) := by exact_mod_cast hge
      have hcc := lt_of_le_of_lt (le_trans hc hle) hlt
      have h64 : ((2 ^ 64 : ℕ) : ℚ) = (2 : ℚ) ^ 64 := by push_cast; ring
      rw [h64] at hcc
      exact lt_irrefl _ hcc
    rw [toU64_of_negExp m k hk, if_neg (by omega), hfloor]

/-- C4 counterexample: the claim says a note of exactly 16 characters always
succeeds, but the source checks Rust `String::len`, which counts UTF-8
*bytes*: the 16-character note `"éééééééééééééééé"` occupies 32 bytes and is
rejected with the NoteTooLong error. -/
theorem c4_counterexample :
    ("éééééééééééééééé".length = 16) ∧
    build_memo "USDC" "A" "B" 1 "y" (some "éééééééééééééééé") =
      .error "Notes must be 16 characters or less, got 32" := by
  exact ⟨by decide, by decide⟩

/-- C4 (amended): the memo encoder is deterministic with the exact grammar
`fuego|<ASSET>|f:<sender>|t:<recipient>|a:<amount>|yid:<yid>|n:<note-or-empty>`,
and the claimed example holds; the note-length limit is measured in UTF-8
*bytes* (Rust `String::len`), not characters: a note of at most 16 bytes
(hence any 16-character ASCII note) succeeds and a note of more than 16
bytes (hence any 17-character note) fails with the NoteTooLong error. -/
theorem c4_theorem :
    (build_memo "USDC" "Alice" "Bob" 1000000 "yid123" none =
      .ok "fuego|USDC|f:Alice|t:Bob|a:1000000|yid:yid123|n:") ∧
    (∀ t s r a y n, byteLen n ≤ 16 →
      build_memo t s r a y (some n) = .ok (memoFormat t s r a y n)) ∧
    (∀ t s r a y n, byteLen n > 16 →
      build_memo t s r a y (some n) =
        .error ("Notes must be 16 characters or less, got " ++
          toString (byteLen n))) ∧
    (build_memo "USDC" "A" "B" 1 "y" (some "1234567890123456") =
      .ok "fuego|USDC|f:A|t:B|a:1|yid:y|n:1234567890123456") ∧
    (build_memo "USDC" "A" "B" 1 "y" (some "12345678901234567") =
      .error "Notes must be 16 characters or less, got 17") := by
  refine ⟨by decide, ?_, ?_, by decide, by decide⟩
  · intro t s r a y n hn
    have := build_memo_ok t s r a y (some n) (by intro x hx; cases hx; exact hn)
    simpa using this
  · intro t s r a y n hn
    exact build_memo_err t s r a y n hn

theorem c4_theorem_witness :
    build_memo "m" "a" "b" 5 "y" (some "hello") =
      .ok (memoFormat "m" "a" "b" 5 "y" "hello") :=
  c4_theorem.2.1 "m" "a" "b" 5 "y" "hello" (by decide)

/-- C2 (code bug): the claim — every builder rejects a note longer than 16
with a `{success:false, error}` response and never silently drops it — is
what the sibling builders and the source's own field documentation
(`max 16 chars`) intend, but `build_transfer_usdt` calls
`build_memo(...).unwrap_or_default()` (src/server/src/main.rs:751), so the
NoteTooLong error is swallowed: with a 17-character note the USDT builder
*succeeds* and produces a transaction whose memo text is empty, while the
USDC builder rejects the identical intent. -/
theorem c2_code_bug_eval :
    (∃ b, (build_transfer_usdt (.ok (List.replicate 32 7))
        ⟨"devnet", "11111111111111111111111111111111",
          "11111111111111111111111111111112", "1", "y",
          some "12345678901234567", none⟩).2 = .ok b ∧
      b.memoText = "" ∧ b.tx.signatures ≠ []) ∧
    (build_transfer_usdc (.ok (List.replicate 32 7))
        ⟨"devnet", "11111111111111111111111111111111",
          "11111111111111111111111111111112", "1", "y",
          some "12345678901234567", none⟩).2 =
      .error "Notes must be 16 characters or less, got 17" := by
  exact ⟨⟨_, rfl, rfl, by decide⟩, by decide⟩

/-- C6 (code bug): the claim — no request input or credential-file content
can make a handler panic instead of returning `{success:false, error}` — is
the error-handling convention everywhere else in the source, but
`x402_request` calls `Keypair::from_bytes(&wallet_store.private_key).unwrap()`
(src/server/src/main.rs:1174): a wallet file whose `privateKey` array is not
a valid 64-byte keypair (here 3 bytes) drives the handler into a panic after
all preceding steps succeed. -/
theorem c6_code_bug_eval :
    x402_build_payment ⟨[0, 1, 2], "11111111111111111111111111111111", "mainnet"⟩
        ⟨"usdc", "11111111111111111111111111111112", "5", "solana", "exact",
          ⟨"11111111111111111111111111111113", 6,
            "11111111111111111111111111111111"⟩⟩ =
      .panicked "called Result::unwrap() on an Err value" ∧
    Keypair.fromBytes [0, 1, 2] = none := by
  exact ⟨by decide, by decide⟩


theorem c3_theorem_witness :
    ((F64.fin false 3 (-1 : ℤ)).toU64 : ℤ) = ⌊(F64.fin false 3 (-1 : ℤ)).toQ⌋ :=
  c3_theorem.2.2 3 (-1) (by norm_num [F64.toQ])

/-- C7 counterexample: the claim says a non-numeric amount is rejected with
error `"Invalid amount"` before any network call; but (a) every builder
fetches the blockhash first — the recorded call list of the rejected request
is `[getLatestBlockhash]`, not empty — and (b) the USDT builder's message is
`"Invalid amount format"`, not `"Invalid amount"`. -/
theorem c7_counterexample :
    (build_transfer_usdc (.ok (List.replicate 32 7))
        ⟨"devnet", "11111111111111111111111111111111",
          "11111111111111111111111111111112", "abc", "y", none, none⟩).1 =
      [.getLatestBlockhash] ∧
    ([NetCall.getLatestBlockhash] ≠ ([] : List NetCall)) ∧
    (build_transfer_usdt (.ok (List.replicate 32 7))
        ⟨"devnet", "11111111111111111111111111111111",
          "11111111111111111111111111111112", "abc", "y", none, none⟩).2 =
      .error "Invalid amount format" ∧
    "Invalid amount format" ≠ "Invalid amount" := by
  exact ⟨rfl, by decide, by decide, by decide⟩

/-- C7 (amended): for every builder, when the sender and recipient addresses
parse but the amount string is non-numeric (e.g. `"abc"`), the request is
rejected with `{success:false, error}` — `"Invalid amount"` for SOL and USDC,
`"Invalid amount format"` for USDT — and the only network call issued is the
checkpoint-hash fetch, which every builder performs *before* parsing the
amount (the fetch is spent on the failing request). -/
theorem c7_theorem (a : Asset) (bh : Pubkey) (req : TransferRequest)
    (fp tp : Pubkey)
    (hf : string_to_pub_key req.from_address = some fp)
    (ht : string_to_pub_key req.to_address = some tp)
    (ha : parseF64 req.amount = none) :
    buildTransfer a (.ok bh) req =
      ([.getLatestBlockhash], .error (amountErrMsg a)) := by
  cases a <;>
    simp only [buildTransfer, build_transfer_sol, build_transfer_usdc,
      build_transfer_usdt, hf, ht, usdc_mint_parses, usdt_mint_parses, ha,
      amountErrMsg]

theorem c7_theorem_witness :
    buildTransfer .USDC (.ok (List.replicate 32 7))
        ⟨"devnet", "11111111111111111111111111111111",
          "11111111111111111111111111111112", "abc", "y", none, none⟩ =
      ([.getLatestBlockhash], .error (amountErrMsg .USDC)) :=
  c7_theorem .USDC (List.replicate 32 7)
    ⟨"devnet", "11111111111111111111111111111111",
      "11111111111111111111111111111112", "abc", "y", none, none⟩
    (List.replicate 32 0) (List.replicate 31 0 ++ [1])
    (by decide) (by decide) (by decide)

/-- C5: every transaction a builder successfully produces has the parsed
sender key as its fee payer (the first compiled account key, the position
`Message::new_with_blockhash` reserves for the payer) and is unsigned: its
signature list is exactly one default (all-zero) signature per required
signer.  The builders receive only the transfer intent and a blockhash — no
private-key material appears anywhere in their inputs or state. -/
theorem c5_theorem (a : Asset) (bh : Pubkey) (req : TransferRequest) (b : BuildOk)
    (h : (buildTransfer a (.ok bh) req).2 = .ok b) :
    (∃ fp, string_to_pub_key req.from_address = some fp ∧
      b.tx.message.account_keys.head? = some fp) ∧
    b.tx.signatures =
      List.replicate b.tx.message.numRequiredSignatures .dflt := by
  cases a <;>
    simp only [buildTransfer, build_transfer_sol, build_transfer_usdc,
      build_transfer_usdt] at h <;>
    (repeat' split at h) <;>
    (try cases h) <;>
    exact ⟨⟨_, by assumption, rfl⟩, rfl⟩

theorem c5_theorem_witness :
    ∃ b, (buildTransfer .USDC (.ok (List.replicate 32 7))
        ⟨"devnet", "11111111111111111111111111111111",
          "11111111111111111111111111111112", "2.50", "order-1", none,
          none⟩).2 = .ok b ∧
      ((∃ fp, string_to_pub_key "11111111111111111111111111111111" = some fp ∧
          b.tx.message.account_keys.head? = some fp) ∧
        b.tx.signatures =
          List.replicate b.tx.message.numRequiredSignatures .dflt) := by
  refine ⟨_, rfl, ?_⟩
  exact c5_theorem .USDC (List.replicate 32 7)
    ⟨"devnet", "11111111111111111111111111111111",
      "11111111111111111111111111111112", "2.50", "order-1", none, none⟩ _ rfl

/-- C1 counterexample: the claim says the compute-unit-price value is the
intent's fee-priority value whenever it is provided and parsable; but the
USDT builder hard-codes `set_compute_unit_price(100)`
(src/server/src/main.rs:741): with `fee_amount = "7"` (parsable as 7) the
built transaction's second instruction still carries price 100, not 7. -/
theorem c1_counterexample :
    parseU64 "7" = some 7 ∧
    (∃ b, (build_transfer_usdt (.ok (List.replicate 32 7))
        ⟨"devnet", "11111111111111111111111111111111",
          "11111111111111111111111111111112", "1", "y", none,
          some "7"⟩).2 = .ok b ∧
      b.tx.message.instructions.get? 1 = some (setComputeUnitPrice 100)) ∧
    setComputeUnitPrice 100 ≠ setComputeUnitPrice 7 := by
  exact ⟨by decide, ⟨_, rfl, rfl⟩, by decide⟩

/-- C1 (amended): for every asset builder and every valid transfer intent
(parsable addresses and amount, note within the 16-byte limit), the built
transaction's instruction list is exactly, in order: the
set-compute-unit-limit instruction (100 000 for SOL and USDC, 300 000 for
USDT), the set-compute-unit-price instruction — whose value for SOL and USDC
is the intent's fee-priority value when provided and parsable and 0
otherwise, and for USDT is always the fixed default 100, regardless of any
supplied fee-priority value — then the asset's transfer instruction (system
program for SOL, token program for USDC/USDT), and the memo instruction
last. -/
theorem c1_theorem (a : Asset) (bh : Pubkey) (req : TransferRequest)
    (fp tp : Pubkey)
    (hf : string_to_pub_key req.from_address = some fp)
    (ht : string_to_pub_key req.to_address = some tp)
    (hv : ∃ v, parseF64 req.amount = some v)
    (hn : ∀ s, req.notes = some s → byteLen s ≤ 16) :
    ∃ b ti mi, (buildTransfer a (.ok bh) req).2 = .ok b ∧
      b.tx.message.instructions =
        [setComputeUnitLimit (cuLimitOf a),
          setComputeUnitPrice (cuPriceOf a req.fee_amount), ti, mi] ∧
      ti.program_id = transferProgramOf a ∧
      mi.program_id = memoProgramId := by
  obtain ⟨v, hv⟩ := hv
  cases a <;>
    simp only [buildTransfer, build_transfer_sol, build_transfer_usdc,
      build_transfer_usdt, hf, ht, usdc_mint_parses, usdt_mint_parses, hv,
      build_memo_ok _ _ _ _ _ _ hn, cuLimitOf, cuPriceOf, transferProgramOf] <;>
    exact ⟨_, _, _, rfl, rfl, rfl, rfl⟩

theorem c1_theorem_witness :
    ∃ b ti mi, (buildTransfer .USDC (.ok (List.replicate 32 7))
        ⟨"devnet", "11111111111111111111111111111111",
          "11111111111111111111111111111112", "2.50", "order-1", none,
          none⟩).2 = .ok b ∧
      b.tx.message.instructions =
        [setComputeUnitLimit (cuLimitOf .USDC),
          setComputeUnitPrice (cuPriceOf .USDC none), ti, mi] ∧
      ti.program_id = transferProgramOf .USDC ∧
      mi.program_id = memoProgramId :=
  c1_theorem .USDC (List.replicate 32 7)
    ⟨"devnet", "11111111111111111111111111111111",
      "11111111111111111111111111111112", "2.50", "order-1", none, none⟩
    (List.replicate 32 0) (List.replicate 31 0 ++ [1])
    (by decide) (by decide)
    ⟨F64.fin false 5629499534213120 (-51), by decide⟩ (fun s h => nomatch h)

/-- C8: the legacy submit path base64-decodes and wire-decodes the blob
before any network activity: a blob that is not valid base64, or whose bytes
are not a well-formed legacy transaction — in particular any blob carrying
the versioned-format leading marker (high bit set in the first byte) — is
answered with `{success:false, error}` and *nothing* is forwarded to the
network (the call list stays empty), while a well-formed legacy blob is
forwarded to the network's submit call exactly once, as the exact decoded
transaction, with no re-signing or alteration. -/
theorem c8_theorem (send : LegacyTx → Except String String) (p : SubmitRequest) :
    (base64Decode p.transaction = none →
      submit_transaction send p =
        ([], .error "Failed to decode transaction - invalid base64")) ∧
    (∀ bs, base64Decode p.transaction = some bs → deserializeLegacyTx bs = none →
      submit_transaction send p =
        ([], .error "Failed to deserialize transaction")) ∧
    (∀ b rest, 128 ≤ b → deserializeLegacyTx (b :: rest) = none) ∧
    (∀ bs tx, base64Decode p.transaction = some bs →
      deserializeLegacyTx bs = some tx →
      (submit_transaction send p).1 = [.sendTransaction tx]) := by
  refine ⟨?_, ?_, ?_, ?_⟩
  · intro h
    simp [submit_transaction, h]
  · intro bs h1 h2
    simp [submit_transaction, h1, h2]
  · intro b rest hb
    simp [deserializeLegacyTx, readLen, Nat.not_lt_of_le hb]
  · intro bs tx h1 h2
    simp [submit_transaction, h1, h2]

theorem c8_theorem_witness :
    submit_transaction (fun _ => .ok "SIG") ⟨"devnet", "!!!", none⟩ =
      ([], .error "Failed to decode transaction - invalid base64") ∧
    submit_transaction (fun _ => .ok "SIG") ⟨"devnet", "gAECAw==", none⟩ =
      ([], .error "Failed to deserialize transaction") ∧
    deserializeLegacyTx [128, 1, 2, 3] = none ∧
    (∃ tx, (submit_transaction (fun _ => .ok "SIG")
        ⟨"devnet", "AQAAAAAAAAAAAAAAAAAAAAAAAAAAAAAAAAAAAAAAAAAAAAAAAAAAAAAAAAAAAAAAAAAAAAAAAAAAAAAAAAAAAAABAAECAAAAAAAAAAAAAAAAAAAAAAAAAAAAAAAAAAAAAAAAAAAAAAAAAAAAAAAAAAAAAAAAAAAAAAAAAAAAAAAAAAAAAAAAAAAAAAAAAAAAAAAAAAAAAAAAAAAAAAAAAAAAAAAAAA==",
          none⟩).1 = [.sendTransaction tx]) := by
  refine ⟨(c8_theorem _ _).1 (by decide),
    (c8_theorem _ _).2.1 [128, 1, 2, 3] (by decide)
      ((c8_theorem (fun _ => .ok "SIG") ⟨"devnet", "x", none⟩).2.2.1 128 [1, 2, 3]
        (by decide)),
    (c8_theorem (fun _ => .ok "SIG") ⟨"devnet", "x", none⟩).2.2.1 128 [1, 2, 3]
      (by decide), ?_⟩
  have hbs : base64Decode
      "AQAAAAAAAAAAAAAAAAAAAAAAAAAAAAAAAAAAAAAAAAAAAAAAAAAAAAAAAAAAAAAAAAAAAAAAAAAAAAAAAAAAAAABAAECAAAAAAAAAAAAAAAAAAAAAAAAAAAAAAAAAAAAAAAAAAAAAAAAAAAAAAAAAAAAAAAAAAAAAAAAAAAAAAAAAAAAAAAAAAAAAAAAAAAAAAAAAAAAAAAAAAAAAAAAAAAAAAAAAA==" =
      some (1 :: (List.replicate 64 0 ++ 1 :: 0 :: 1 :: 2 ::
        (List.replicate 64 0 ++ (List.replicate 32 0 ++ [0])))) := by decide
  have htx : deserializeLegacyTx
      (1 :: (List.replicate 64 0 ++ 1 :: 0 :: 1 :: 2 ::
        (List.replicate 64 0 ++ (List.replicate 32 0 ++ [0])))) =
      some ⟨[List.replicate 64 0],
        ⟨1, 0, 1, [List.replicate 32 0, List.replicate 32 0],
          List.replicate 32 0, []⟩⟩ := by decide
  exact ⟨_, (c8_theorem _ _).2.2.2 _ _ hbs htx⟩

/-- C10: `/transaction-history` returns exactly the fetched signature
entries whose memo text contains `"fuego"` case-insensitively (entries with
no memo are excluded), `/all-transactions` returns the fetched list
unfiltered, and with no limit supplied the handlers request at most 10
respectively 20 entries from the node. -/
theorem c10_theorem (fetch : Except String (List SigInfo)) (p : HistoryRequest)
    (k : Pubkey) (hk : string_to_pub_key p.address = some k) :
    (p.limit = none →
      (get_fuego_transactions fetch p).1 =
        [.getSignaturesForAddress k (some 10)] ∧
      (get_all_transactions fetch p).1 =
        [.getSignaturesForAddress k (some 20)]) ∧
    (∀ sigs, fetch = .ok sigs →
      (get_fuego_transactions fetch p).2 = .ok (sigs.filter fuegoFilterKeeps) ∧
      (get_all_transactions fetch p).2 = .ok sigs ∧
      (∀ si, si ∈ sigs.filter fuegoFilterKeeps ↔
        si ∈ sigs ∧ ∃ m, si.memo = some m ∧ memoContainsFuego m = true)) := by
  constructor
  · intro hl
    constructor <;> simp [get_fuego_transactions, get_all_transactions, hk, hl]
  · intro sigs hF
    subst hF
    refine ⟨by simp [get_fuego_transactions, hk],
      by simp [get_all_transactions, hk], ?_⟩
    intro si
    rw [List.mem_filter]
    constructor
    · rintro ⟨hmem, hkeep⟩
      refine ⟨hmem, ?_⟩
      unfold fuegoFilterKeeps at hkeep
      cases hm : si.memo with
      | none => rw [hm] at hkeep; cases hkeep
      | some m => rw [hm] at hkeep; exact ⟨m, rfl, hkeep⟩
    · rintro ⟨hmem, m, hm, hc⟩
      refine ⟨hmem, ?_⟩
      unfold fuegoFilterKeeps
      rw [hm]
      exact hc

theorem c10_theorem_witness :
    ((get_fuego_transactions (.ok [⟨"s1", some "xFUEGO|z", 1⟩, ⟨"s2", none, 2⟩,
        ⟨"s3", some "other", 3⟩])
      ⟨"11111111111111111111111111111111", "devnet", none⟩).1 =
        [.getSignaturesForAddress (List.replicate 32 0) (some 10)] ∧
      (get_all_transactions (.ok [⟨"s1", some "xFUEGO|z", 1⟩, ⟨"s2", none, 2⟩,
          ⟨"s3", some "other", 3⟩])
        ⟨"11111111111111111111111111111111", "devnet", none⟩).1 =
        [.getSignaturesForAddress (List.replicate 32 0) (some 20)]) ∧
    memoContainsFuego "xFUEGO|z" = true ∧ memoContainsFuego "other" = false :=
  ⟨(c10_theorem (.ok [⟨"s1", some "xFUEGO|z", 1⟩, ⟨"s2", none, 2⟩,
        ⟨"s3", some "other", 3⟩])
      ⟨"11111111111111111111111111111111", "devnet", none⟩
      (List.replicate 32 0) (by decide)).1 rfl, by decide, by decide⟩
theorem dedupKeysAux_mem : ∀ (fuel : ℕ) (l : List Pubkey), l.length ≤ fuel →
    ∀ x, x ∈ dedupKeysAux fuel l ↔ x ∈ l := by
  intro fuel
  induction fuel with
  | zero =>
    intro l hl x
    have : l = [] := List.eq_nil_of_length_eq_zero (Nat.le_zero.mp hl)
    subst this
    simp [dedupKeysAux]
  | succ n ih =>
    intro l hl x
    cases l with
    | nil => simp [dedupKeysAux]
    | cons k rest =>
      simp only [dedupKeysAux, List.mem_cons]
      have hlen : (rest.filter (fun y => !(y == k))).length ≤ n := by
        have h1 := List.length_filter_le (fun y => !(y == k)) rest
        simp only [List.length_cons] at hl
        omega
      rw [ih _ hlen x, List.mem_filter]
      constructor
      · rintro (h | ⟨h1, _⟩)
        · exact Or.inl h
        · exact Or.inr h1
      · rintro (h | h1)
        · exact Or.inl h
        · by_cases hxk : x = k
          · exact Or.inl hxk
          · exact Or.inr ⟨h1, by simp [hxk]⟩

theorem dedupKeys_mem (l : List Pubkey) (x : Pubkey) :
    x ∈ dedupKeys l ↔ x ∈ l :=
  dedupKeysAux_mem l.length l (le_refl _) x

theorem insertKey_mem (k : Pubkey) : ∀ (l : List Pubkey) (x : Pubkey),
    x ∈ insertKey k l ↔ x = k ∨ x ∈ l := by
  intro l
  induction l with
  | nil => intro x; simp [insertKey]
  | cons a as ih =>
    intro x
    simp only [insertKey]
    split
    · simp [List.mem_cons]
    · rw [List.mem_cons, ih x, List.mem_cons]
      tauto

theorem sortKeys_mem (l : List Pubkey) (x : Pubkey) :
    x ∈ sortKeys l ↔ x ∈ l := by
  induction l with
  | nil => simp [sortKeys]
  | cons a as ih =>
    show x ∈ insertKey a (sortKeys as) ↔ _
    rw [insertKey_mem, ih, List.mem_cons]

theorem insertKey_length (k : Pubkey) : ∀ (l : List Pubkey),
    (insertKey k l).length = l.length + 1 := by
  intro l
  induction l with
  | nil => rfl
  | cons a as ih =>
    simp only [insertKey]
    split
    · simp
    · simp [ih]

theorem sortKeys_length (l : List Pubkey) : (sortKeys l).length = l.length := by
  induction l with
  | nil => rfl
  | cons a as ih =>
    show (insertKey a (sortKeys as)).length = _
    rw [insertKey_length, ih, List.length_cons]

theorem findKeyIdx_of_mem (k : Pubkey) : ∀ (l : List Pubkey), k ∈ l →
    ∃ i, findKeyIdx k l = some i ∧ i < l.length := by
  intro l
  induction l with
  | nil => intro h; cases h
  | cons a as ih =>
    intro h
    by_cases hak : a = k
    · exact ⟨0, by simp [findKeyIdx, hak], by simp⟩
    · have hmem : k ∈ as := by
        rcases List.mem_cons.mp h with h1 | h1
        · exact absurd h1.symm hak
        · exact h1
      obtain ⟨i, hi, hlt⟩ := ih hmem
      exact ⟨i + 1, by simp [findKeyIdx, hak, hi], by simp [Nat.succ_lt_succ hlt]⟩

theorem signers_of_message (instrs : List Instruction) (payer bh : Pubkey) :
    (Message.new_with_blockhash instrs payer bh).account_keys.take
        (Message.new_with_blockhash instrs payer bh).numRequiredSignatures =
      payer :: ((keySegments instrs payer).1 ++ (keySegments instrs payer).2.1) := by
  show (payer :: _).take (1 + (keySegments instrs payer).1.length +
      (keySegments instrs payer).2.1.length) = _
  rw [show 1 + (keySegments instrs payer).1.length +
      (keySegments instrs payer).2.1.length =
      ((keySegments instrs payer).1.length +
        (keySegments instrs payer).2.1.length) + 1 by omega]
  rw [List.take_succ_cons]
  congr 1
  rw [show (keySegments instrs payer).1 ++ (keySegments instrs payer).2.1 ++
      (keySegments instrs payer).2.2.1 ++ (keySegments instrs payer).2.2.2 =
      ((keySegments instrs payer).1 ++ (keySegments instrs payer).2.1) ++
        ((keySegments instrs payer).2.2.1 ++ (keySegments instrs payer).2.2.2) by
    simp [List.append_assoc]]
  rw [show (keySegments instrs payer).1.length +
      (keySegments instrs payer).2.1.length =
      ((keySegments instrs payer).1 ++ (keySegments instrs payer).2.1).length by
    simp]
  exact List.take_left _ _

theorem mem_signerSegs (instrs : List Instruction) (payer k : Pubkey)
    (hs : keyIsSigner (metasOf instrs payer) k = true) (hne : k ≠ payer) :
    k ∈ (keySegments instrs payer).1 ++ (keySegments instrs payer).2.1 := by
  have hmem : k ∈ (metasOf instrs payer).map (·.pubkey) := by
    rcases List.any_eq_true.mp hs with ⟨m, hm, hmk⟩
    rw [Bool.and_eq_true] at hmk
    obtain ⟨hpk, _⟩ := hmk
    exact List.mem_map.mpr ⟨m, hm, by exact beq_iff_eq.mp hpk⟩
  have hdk : k ∈ dedupKeys ((metasOf instrs payer).map (·.pubkey)) :=
    (dedupKeys_mem _ _).mpr hmem
  have hoth : k ∈ (dedupKeys ((metasOf instrs payer).map (·.pubkey))).filter
      (fun x => !(x == payer)) :=
    List.mem_filter.mpr ⟨hdk, by simp [hne]⟩
  rw [List.mem_append]
  cases hw : keyIsWritable (metasOf instrs payer) k with
  | true =>
    left
    show k ∈ sortKeys _
    rw [sortKeys_mem, List.mem_filter]
    refine ⟨hoth, ?_⟩
    simp [hs, hw]
  | false =>
    right
    show k ∈ sortKeys _
    rw [sortKeys_mem, List.mem_filter]
    refine ⟨hoth, ?_⟩
    simp [hs, hw]

theorem addLocalSignature_of_signer (instrs : List Instruction)
    (payer bh : Pubkey) (kp : Keypair)
    (hs : keyIsSigner (metasOf instrs payer) kp.pubkey = true)
    (hne : kp.pubkey ≠ payer) :
    ∃ i, 0 < i ∧
      i < (Message.new_with_blockhash instrs payer bh).numRequiredSignatures ∧
      (Transaction.new_unsigned
          (Message.new_with_blockhash instrs payer bh)).addLocalSignature kp bh =
        .ok ⟨(List.replicate
            (Message.new_with_blockhash instrs payer bh).numRequiredSignatures
            .dflt).set i (.signed kp.pubkey),
          Message.new_with_blockhash instrs payer bh⟩ := by
  have hmem := mem_signerSegs instrs payer kp.pubkey hs hne
  obtain ⟨j, hj, hjlt⟩ := findKeyIdx_of_mem kp.pubkey _ hmem
  have hsig : findKeyIdx kp.pubkey
      ((Message.new_with_blockhash instrs payer bh).account_keys.take
        (Message.new_with_blockhash instrs payer bh).numRequiredSignatures) =
      some (j + 1) := by
    rw [signers_of_message]
    simp only [findKeyIdx, hj, Option.map_some']
    rw [if_neg (show ¬ (payer = kp.pubkey) from fun hh => hne hh.symm)]
  refine ⟨j + 1, Nat.succ_pos j, ?_, ?_⟩
  · have : (Message.new_with_blockhash instrs payer bh).numRequiredSignatures =
        1 + (keySegments instrs payer).1.length +
          (keySegments instrs payer).2.1.length := rfl
    rw [this]
    have hlen : ((keySegments instrs payer).1 ++
        (keySegments instrs payer).2.1).length =
        (keySegments instrs payer).1.length +
          (keySegments instrs payer).2.1.length := by simp
    omega
  · simp only [Transaction.addLocalSignature, Transaction.new_unsigned]
    rw [hsig]
    rfl

theorem get?_replicate_of_lt {α : Type} (a : α) : ∀ (n i : ℕ), i < n →
    (List.replicate n a).get? i = some a := by
  intro n
  induction n with
  | zero => intro i hi; omega
  | succ m ih =>
    intro i hi
    cases i with
    | zero => rfl
    | succ j =>
      show (List.replicate m a).get? j = some a
      exact ih j (by omega)

/-- C9: in the x402 flow, for every accepted Solana payment requirement and
consistent local wallet, the payment transaction is built from the *remote
party's* fee-payer key (the first account key / designated fee payer), the
remote decimal count (inside the transfer-checked instruction), and the
remote checkpoint hash (never fetched locally — the flow performs no RPC
call), with compute budget fixed at 300 000 limit / 5 000 price; it is then
only partially signed: the local signature fills the sender's signer slot
(an index other than 0) while the remote fee payer's slot 0 keeps the
default (empty) signature. -/
theorem c9_theorem (w : WalletStore) (req : X402PaymentRequirement)
    (sender payee fp bh : Pubkey) (amt : ℕ)
    (h1 : string_to_pub_key w.address = some sender)
    (h2 : string_to_pub_key req.pay_to = some payee)
    (h3 : string_to_pub_key req.extra.fee_payer = some fp)
    (h4 : hashFromStr req.extra.recent_blockhash = some bh)
    (h5 : parseU64 req.max_amount_required = some amt)
    (h6 : w.private_key.length = 64)
    (h7 : w.private_key.drop 32 = sender)
    (h8 : fp ≠ sender) :
    ∃ tx, x402_build_payment w req = .paymentBuilt tx amt ∧
      tx.message.recent_blockhash = bh ∧
      tx.message.account_keys.head? = some fp ∧
      tx.message.instructions =
        [setComputeUnitLimit 300000, setComputeUnitPrice 5000,
          splTransferChecked (get_associated_token_address sender usdcMintKey)
            usdcMintKey (get_associated_token_address payee usdcMintKey)
            sender [sender] amt req.extra.decimals] ∧
      tx.signatures.get? 0 = some .dflt ∧
      (∃ i, i ≠ 0 ∧ tx.signatures.get? i = some (.signed sender)) := by
  have hkp : Keypair.fromBytes w.private_key = some ⟨w.private_key⟩ := by
    simp [Keypair.fromBytes, h6]
  have hpk : (Keypair.mk w.private_key).pubkey = sender := by
    simp [Keypair.pubkey, h7]
  have hs : keyIsSigner (metasOf
      [setComputeUnitLimit 300000, setComputeUnitPrice 5000,
        splTransferChecked (get_associated_token_address sender usdcMintKey)
          usdcMintKey (get_associated_token_address payee usdcMintKey)
          sender [sender] amt req.extra.decimals] fp)
      (Keypair.mk w.private_key).pubkey = true := by
    rw [hpk]
    apply List.any_eq_true.mpr
    refine ⟨⟨sender, true, false⟩, ?_, by simp⟩
    simp [metasOf, splTransferChecked, setComputeUnitLimit, setComputeUnitPrice]
  have hne2 : (Keypair.mk w.private_key).pubkey ≠ fp := by
    rw [hpk]
    exact fun hh => h8 hh.symm
  obtain ⟨i, hi0, hilt, hsig⟩ := addLocalSignature_of_signer
    [setComputeUnitLimit 300000, setComputeUnitPrice 5000,
      splTransferChecked (get_associated_token_address sender usdcMintKey)
        usdcMintKey (get_associated_token_address payee usdcMintKey)
        sender [sender] amt req.extra.decimals] fp bh ⟨w.private_key⟩ hs hne2
  have hrun : x402_build_payment w req = .paymentBuilt
      ⟨(List.replicate (Message.new_with_blockhash
          [setComputeUnitLimit 300000, setComputeUnitPrice 5000,
            splTransferChecked (get_associated_token_address sender usdcMintKey)
              usdcMintKey (get_associated_token_address payee usdcMintKey)
              sender [sender] amt req.extra.decimals] fp bh).numRequiredSignatures
          .dflt).set i (.signed (Keypair.mk w.private_key).pubkey),
        Message.new_with_blockhash
          [setComputeUnitLimit 300000, setComputeUnitPrice 5000,
            splTransferChecked (get_associated_token_address sender usdcMintKey)
              usdcMintKey (get_associated_token_address payee usdcMintKey)
              sender [sender] amt req.extra.decimals] fp bh⟩ amt := by
    simp only [x402_build_payment, h1, h2, h3, h4, h5, usdc_mint_parses, hkp,
      hsig]
  refine ⟨_, hrun, rfl, rfl, rfl, ?_, ?_⟩
  · rw [List.get?_set_ne _ _ (by omega)]
    exact get?_replicate_of_lt _ _ _ (by omega)
  · refine ⟨i, by omega, ?_⟩
    rw [hpk, List.get?_set_eq_of_lt]
    rw [List.length_replicate]
    exact hilt

theorem c9_theorem_witness :
    ∃ tx, x402_build_payment
        ⟨List.replicate 64 0, "11111111111111111111111111111111", "mainnet"⟩
        ⟨"usdc", "11111111111111111111111111111112", "5", "solana", "exact",
          ⟨"11111111111111111111111111111113", 6,
            "11111111111111111111111111111111"⟩⟩ = .paymentBuilt tx 5 ∧
      tx.message.recent_blockhash = List.replicate 32 0 ∧
      tx.message.account_keys.head? = some (List.replicate 31 0 ++ [2]) ∧
      tx.message.instructions =
        [setComputeUnitLimit 300000, setComputeUnitPrice 5000,
          splTransferChecked
            (get_associated_token_address (List.replicate 32 0) usdcMintKey)
            usdcMintKey
            (get_associated_token_address (List.replicate 31 0 ++ [1])
              usdcMintKey)
            (List.replicate 32 0) [List.replicate 32 0] 5 6] ∧
      tx.signatures.get? 0 = some .dflt ∧
      (∃ i, i ≠ 0 ∧
        tx.signatures.get? i = some (.signed (List.replicate 32 0))) :=
  c9_theorem
    ⟨List.replicate 64 0, "11111111111111111111111111111111", "mainnet"⟩
    ⟨"usdc", "11111111111111111111111111111112", "5", "solana", "exact",
      ⟨"11111111111111111111111111111113", 6,
        "11111111111111111111111111111111"⟩⟩
    (List.replicate 32 0) (List.replicate 31 0 ++ [1])
    (List.replicate 31 0 ++ [2]) (List.replicate 32 0) 5
    (by decide) (by decide) (by decide) (by decide) (by decide) (by decide)
    (by decide) (by decide)

end Fuego
